import Mathlib

/-!
Verification of the SpatialDSLStudio component-configuration script
(`src/casestudy_artifacts/Generated_Codes/ConfigurationScript.py`) against its
natural-language specification.

The script itself is literal template data, a textual boolean-literal
substitution (`raw_components.replace("false", "False").replace("true", "True")`),
a single `eval` of the whole template list, and a loop calling the external
`create_component`.  The Template Expansion Engine (validation, type coercion,
property expansion, materialization) lives in an external source file that is
not part of this repository, so those components are modelled from the spec;
the loader (substitution + eval) and the concrete template data are embedded
directly from the source.
-/

namespace SpatialDSL

/-! ## Data model (§3 of the spec) -/

/-- Modelled from the spec: the closed set of declared property types
`{string, number, boolean}` (§3, PropertyDeclaration.type). -/
inductive PType where
  | string
  | number
  | boolean
deriving DecidableEq, Repr

/-- Modelled from the spec: a dynamic property value — text, numeric, or
logical true/false (§3, §4.2).  Numbers are modelled as integers; the spec
states the integer/floating-point distinction is not semantically significant
to this layer, and every default in the source data is an integer. -/
inductive PValue where
  | str (s : String)
  | num (n : Int)
  | bool (b : Bool)
deriving DecidableEq, Repr

/-- The dynamic type tag of a value. -/
def PValue.kind : PValue → PType
  | .str _ => .string
  | .num _ => .number
  | .bool _ => .boolean

/-- Modelled from the spec: PropertyDeclaration (§3) — name, declared type,
raw default. -/
structure PropertyDeclaration where
  name : String
  type : PType
  default : PValue
deriving DecidableEq, Repr

/-- Modelled from the spec: NumberedPropertyRule (§3) — base name
`name_template`, declared type, raw default. -/
structure NumberedPropertyRule where
  name_template : String
  type : PType
  default : PValue
deriving DecidableEq, Repr

/-- Modelled from the spec: ComponentTemplate (§3).  `property_sets` is the
multiplicity for numbered properties (defaults to 1 when omitted from the
declarative source; validation guarantees positivity when it matters). -/
structure ComponentTemplate where
  name : String
  folder : String
  layout_name : Option String := none
  properties : List PropertyDeclaration := []
  numbered_properties : List NumberedPropertyRule := []
  property_sets : Nat := 1
  script : Option String := none
deriving DecidableEq, Repr

/-- A concrete, fully named property emitted by the Property Expander. -/
structure ConcreteProperty where
  name : String
  type : PType
  default : PValue
deriving DecidableEq, Repr

/-! ## Type Coercion Layer (§4.2) -/

/-- Errors raised while expanding a template (§7 taxonomy: `TypeMismatchError`
and `DuplicatePropertyNameError`). -/
inductive ExpandError where
  | typeMismatch
  | duplicateName
deriving DecidableEq, Repr

/-- Decimal digit run to a natural number. -/
def digitsToNat (cs : List Char) : Nat :=
  cs.foldl (fun acc c => acc * 10 + (c.toNat - 48)) 0

/-- Modelled from the spec: "numeric-looking" textual defaults (§4.2) — an
optional leading minus sign followed by a nonempty run of decimal digits. -/
def parseIntString (s : String) : Option Int :=
  match s.data with
  | [] => none
  | '-' :: rest =>
      if rest ≠ [] ∧ rest.all Char.isDigit then some (-(digitsToNat rest : Int))
      else none
  | cs => if cs.all Char.isDigit then some (digitsToNat cs : Int) else none

/-- Modelled from the spec: the Type Coercion Layer (§4.2).  Given a declared
type tag and a raw default, return the normalized value or fail with
`TypeMismatchError`.  A textual default declared `number` is accepted exactly
when it is numeric-looking; coercion is otherwise strict: in particular a
string is never interpreted as a boolean. -/
def coerce : PType → PValue → Except ExpandError PValue
  | .string, .str s => .ok (.str s)
  | .number, .num n => .ok (.num n)
  | .number, .str s =>
      match parseIntString s with
      | some n => .ok (.num n)
      | none => .error .typeMismatch
  | .boolean, .bool b => .ok (.bool b)
  | _, _ => .error .typeMismatch

/-! ## Property Expander (§4.3) -/

/-- Effectful map over a list in the `Except` monad, short-circuiting at the
first error (explicit recursion for transparent proofs). -/
def mapE (f : α → Except ε β) : List α → Except ε (List β)
  | [] => .ok []
  | x :: xs =>
      match f x with
      | .error e => .error e
      | .ok y =>
          match mapE f xs with
          | .error e => .error e
          | .ok ys => .ok (y :: ys)

/-- Modelled from the spec: step 1 of the expander — emit a base property
unchanged (name, coerced default, type). -/
def expandProp (p : PropertyDeclaration) : Except ExpandError ConcreteProperty :=
  match coerce p.type p.default with
  | .error e => .error e
  | .ok v => .ok ⟨p.name, p.type, v⟩

/-- Modelled from the spec: step 3 of the expander — instantiate one numbered
rule once per set index from 1 to `n` inclusive, the set index appended to
`name_template` in decimal to form the concrete name. -/
def expandRule (n : Nat) (r : NumberedPropertyRule) :
    Except ExpandError (List ConcreteProperty) :=
  match coerce r.type r.default with
  | .error e => .error e
  | .ok v =>
      .ok ((List.range n).map fun i =>
        ⟨r.name_template ++ toString (i + 1), r.type, v⟩)

/-- Boolean duplicate-freedom check on a list of names. -/
def namesNodup : List String → Bool
  | [] => true
  | n :: ns => !ns.contains n && namesNodup ns

/-- Modelled from the spec: the Property Expander (§4.3).  Emits every base
property once in declaration order, then each numbered rule rule-major /
set-index-minor, and fails with `DuplicatePropertyNameError` when the full
emitted name list contains a duplicate. -/
def expandTemplate (t : ComponentTemplate) :
    Except ExpandError (List ConcreteProperty) :=
  match mapE expandProp t.properties with
  | .error e => .error e
  | .ok base =>
      match mapE (expandRule t.property_sets) t.numbered_properties with
      | .error e => .error e
      | .ok groups =>
          if namesNodup ((base ++ groups.flatten).map ConcreteProperty.name) then
            .ok (base ++ groups.flatten)
          else .error .duplicateName

/-- The names the expander would emit for a template; determined by the
template alone, independently of coercion. -/
def expandedNames (t : ComponentTemplate) : List String :=
  t.properties.map PropertyDeclaration.name ++
    (t.numbered_properties.map fun r =>
      (List.range t.property_sets).map fun i =>
        r.name_template ++ toString (i + 1)).flatten

/-! ## The template data of the source
(`raw_components` in ConfigurationScript.py, as parsed by the loader).
`script` holds the bare identifier name appearing in the source text. -/

/-- The "Pathway Area" template (source lines 16–28). -/
def pathwayAreaTemplate : ComponentTemplate where
  name := "Pathway Area"
  folder := "Navigation"
  properties := [⟨"pathwayProperties", .string, .str ""⟩]
  script := some "PathwayArea"

/-- The output "Conveyor" template (source lines 29–40). -/
def outputConveyorTemplate : ComponentTemplate where
  name := "Conveyor"
  folder := "Conveyors"
  layout_name := some "_Template_OutputConveyor"
  properties := [⟨"outputconveyorProperties", .string, .str ""⟩]
  script := some "OutputConveyor"

/-- The "Block Geo" template (source lines 41–45): all optional fields absent. -/
def blockGeoTemplate : ComponentTemplate where
  name := "Block Geo"
  folder := "Basic Shapes"
  layout_name := some "Component1"

/-- The input "Conveyor" template (source lines 46–73): 2 base properties,
4 numbered rules, `property_sets = 2`. -/
def inputConveyorTemplate : ComponentTemplate where
  name := "Conveyor"
  folder := "Conveyors"
  layout_name := some "_Template_InputConveyor"
  properties :=
    [⟨"inputconveyorQuantity", .number, .num 0⟩,
     ⟨"inputconveyorProperties", .string, .str ""⟩]
  numbered_properties :=
    [⟨"produced", .boolean, .bool false⟩,
     ⟨"productType", .string, .str "Component"⟩,
     ⟨"clonetimeInterval", .number, .num 160⟩,
     ⟨"cloneCount", .number, .num 0⟩]
  property_sets := 2
  script := some "InputConveyor"

/-- The "Idle Location" template (source lines 74–85). -/
def idleLocationTemplate : ComponentTemplate where
  name := "Idle Location"
  folder := "Navigation"
  layout_name := some "_Template_IdleLocation"
  properties := [⟨"idleProperties", .string, .str ""⟩]
  script := some "IdleLocation"

/-- The "Mobile Robot Resource" template (source lines 86–131): 2 base
properties, 9 numbered rules, `property_sets = 4`. -/
def mobileRobotTemplate : ComponentTemplate where
  name := "Mobile Robot Resource"
  folder := "Mobile Robots"
  layout_name := some "_Template_Mobile_Robot_Resource"
  properties :=
    [⟨"robotQuantity", .number, .num 0⟩,
     ⟨"initialPositions", .string, .str ""⟩]
  numbered_properties :=
    [⟨"location", .string, .str "initial"⟩,
     ⟨"nextLocation", .string, .str ""⟩,
     ⟨"batteryLevel", .number, .num 100⟩,
     ⟨"target", .string, .str ""⟩,
     ⟨"stop", .boolean, .bool false⟩,
     ⟨"priority", .number, .num 1⟩,
     ⟨"carryingProduct", .boolean, .bool false⟩,
     ⟨"carriedProduct", .string, .str ""⟩,
     ⟨"maxSpeed", .number, .num 0⟩]
  property_sets := 4
  script := some "Robot"

/-- The full component list of the source (`COMPONENTS_TO_CREATE`), in
declaration order. -/
def COMPONENTS_TO_CREATE : List ComponentTemplate :=
  [pathwayAreaTemplate, outputConveyorTemplate, blockGeoTemplate,
   inputConveyorTemplate, idleLocationTemplate, mobileRobotTemplate]

/-- The `location` numbered rule of the Mobile Robot Resource template
(source lines 100–103). -/
def locationRule : NumberedPropertyRule := ⟨"location", .string, .str "initial"⟩

/-- The spec's §8 end-to-end example template: one base property, one
numbered rule, `property_sets = 2`.  The example gives no folder; the
expander never reads it. -/
def specExampleTemplate : ComponentTemplate where
  name := "InputConveyor"
  folder := ""
  properties := [⟨"inputconveyorProperties", .string, .str ""⟩]
  numbered_properties := [⟨"produced", .boolean, .bool false⟩]
  property_sets := 2

/-! ## General lemmas about `mapE` -/

theorem mapE_ok_iff {f : α → Except ε β} :
    ∀ {l : List α} {l' : List β},
      mapE f l = .ok l' ↔ List.Forall₂ (fun a b => f a = .ok b) l l' := by
  intro l
  induction l with
  | nil =>
      intro l'
      constructor
      · intro h
        injection h with h
        subst h
        exact List.Forall₂.nil
      · intro h
        cases h
        rfl
  | cons x xs ih =>
      intro l'
      constructor
      · intro h
        rw [mapE] at h
        cases hfx : f x with
        | error e => rw [hfx] at h; cases h
        | ok y =>
            rw [hfx] at h
            cases hxs : mapE f xs with
            | error e => rw [hxs] at h; cases h
            | ok ys =>
                rw [hxs] at h
                injection h with h
                subst h
                exact List.Forall₂.cons hfx (ih.mp hxs)
      · intro h
        cases h with
        | cons ha hl =>
            rw [mapE, ha, ih.mpr hl]

theorem mapE_ok_length {f : α → Except ε β} {l : List α} {l' : List β}
    (h : mapE f l = .ok l') : l'.length = l.length :=
  (mapE_ok_iff.mp h).length_eq.symm

theorem mapE_ok_mem {f : α → Except ε β} {l : List α} {l' : List β}
    (h : mapE f l = .ok l') {x : α} (hx : x ∈ l) : ∃ y, f x = .ok y := by
  induction l generalizing l' with
  | nil => cases hx
  | cons z zs ih =>
      rw [mapE] at h
      cases hfz : f z with
      | error e => rw [hfz] at h; cases h
      | ok y =>
          rw [hfz] at h
          cases hzs : mapE f zs with
          | error e => rw [hzs] at h; cases h
          | ok ys =>
              cases hx with
              | head => exact ⟨y, hfz⟩
              | tail _ hx => exact ih hzs hx

theorem mapE_ok_of_forall {f : α → Except ε β} :
    ∀ {l : List α}, (∀ x ∈ l, ∃ y, f x = .ok y) → ∃ l', mapE f l = .ok l' := by
  intro l
  induction l with
  | nil => exact fun _ => ⟨[], rfl⟩
  | cons x xs ih =>
      intro h
      obtain ⟨y, hy⟩ := h x (List.mem_cons_self x xs)
      obtain ⟨ys, hys⟩ := ih fun z hz => h z (List.mem_cons_of_mem x hz)
      exact ⟨y :: ys, by rw [mapE, hy, hys]⟩

theorem mapE_error_mem {f : α → Except ε β} :
    ∀ {l : List α} {e : ε}, mapE f l = .error e → ∃ x ∈ l, f x = .error e := by
  intro l
  induction l with
  | nil => intro e h; cases h
  | cons x xs ih =>
      intro e h
      rw [mapE] at h
      cases hfx : f x with
      | error e' =>
          rw [hfx] at h
          injection h with h
          subst h
          exact ⟨x, List.mem_cons_self x xs, hfx⟩
      | ok y =>
          rw [hfx] at h
          cases hxs : mapE f xs with
          | error e' =>
              rw [hxs] at h
              injection h with h
              subst h
              obtain ⟨z, hz, hfz⟩ := ih hxs
              exact ⟨z, List.mem_cons_of_mem x hz, hfz⟩
          | ok ys => rw [hxs] at h; cases h

theorem mapE_error_of_mem {f : α → Except ε β} :
    ∀ {l : List α} {x : α} {e : ε}, x ∈ l → f x = .error e →
      ∃ e', mapE f l = .error e' := by
  intro l
  induction l with
  | nil => intro x e hx; cases hx
  | cons z zs ih =>
      intro x e hx hfx
      cases hfz : f z with
      | error e' => exact ⟨e', by rw [mapE, hfz]⟩
      | ok y =>
          cases hx with
          | head => rw [hfx] at hfz; cases hfz
          | tail _ hx =>
              obtain ⟨e', he'⟩ := ih hx hfx
              exact ⟨e', by rw [mapE, hfz, he']⟩

/-! ## Structural lemmas about coercion and the expander -/

theorem coerce_error_eq {t : PType} {v : PValue} {e : ExpandError}
    (h : coerce t v = .error e) : e = .typeMismatch := by
  cases t <;> cases v <;> simp only [coerce] at h <;> try split at h
  all_goals cases h <;> rfl

theorem expandProp_ok {p : PropertyDeclaration} {c : ConcreteProperty}
    (h : expandProp p = .ok c) :
    c.name = p.name ∧ c.type = p.type ∧ coerce p.type p.default = .ok c.default := by
  rw [expandProp] at h
  cases hc : coerce p.type p.default with
  | error e => rw [hc] at h; cases h
  | ok v =>
      rw [hc] at h
      injection h with h
      subst h
      exact ⟨rfl, rfl, rfl⟩

theorem expandProp_error {p : PropertyDeclaration} {e : ExpandError}
    (h : expandProp p = .error e) : coerce p.type p.default = .error e := by
  rw [expandProp] at h
  cases hc : coerce p.type p.default with
  | error e' => rw [hc] at h; injection h with h; rw [h]
  | ok v => rw [hc] at h; cases h

theorem expandProp_ok_of_coerce {p : PropertyDeclaration} {v : PValue}
    (h : coerce p.type p.default = .ok v) : expandProp p = .ok ⟨p.name, p.type, v⟩ := by
  rw [expandProp, h]

theorem expandRule_ok {n : Nat} {r : NumberedPropertyRule} {g : List ConcreteProperty}
    (h : expandRule n r = .ok g) :
    ∃ v, coerce r.type r.default = .ok v ∧
      g = (List.range n).map fun i => ⟨r.name_template ++ toString (i + 1), r.type, v⟩ := by
  rw [expandRule] at h
  cases hc : coerce r.type r.default with
  | error e => rw [hc] at h; cases h
  | ok v =>
      rw [hc] at h
      injection h with h
      exact ⟨v, rfl, h.symm⟩

theorem expandRule_error {n : Nat} {r : NumberedPropertyRule} {e : ExpandError}
    (h : expandRule n r = .error e) : coerce r.type r.default = .error e := by
  rw [expandRule] at h
  cases hc : coerce r.type r.default with
  | error e' => rw [hc] at h; injection h with h; rw [h]
  | ok v => rw [hc] at h; cases h

theorem expandRule_ok_of_coerce {n : Nat} {r : NumberedPropertyRule} {v : PValue}
    (h : coerce r.type r.default = .ok v) :
    expandRule n r =
      .ok ((List.range n).map fun i => ⟨r.name_template ++ toString (i + 1), r.type, v⟩) := by
  rw [expandRule, h]

theorem expandRule_ok_length {n : Nat} {r : NumberedPropertyRule}
    {g : List ConcreteProperty} (h : expandRule n r = .ok g) : g.length = n := by
  obtain ⟨v, -, hg⟩ := expandRule_ok h
  simp [hg]

/-- Deconstruction of a successful expansion into its base part and its
per-rule groups. -/
theorem expandTemplate_ok_elim {t : ComponentTemplate} {l : List ConcreteProperty}
    (h : expandTemplate t = .ok l) :
    ∃ base groups,
      mapE expandProp t.properties = .ok base ∧
      mapE (expandRule t.property_sets) t.numbered_properties = .ok groups ∧
      namesNodup ((base ++ groups.flatten).map ConcreteProperty.name) = true ∧
      l = base ++ groups.flatten := by
  rw [expandTemplate] at h
  split at h
  · cases h
  next base h1 =>
    split at h
    · cases h
    next groups h2 =>
      split at h
      next h3 =>
        injection h with h
        exact ⟨base, groups, h1, h2, h3, h.symm⟩
      next h3 => cases h

theorem forall₂_map_eq {R : α → β → Prop} {g : β → γ} {f : α → γ}
    (H : ∀ a b, R a b → g b = f a) :
    ∀ {l : List α} {l' : List β}, List.Forall₂ R l l' → l'.map g = l.map f := by
  intro l l' h
  induction h with
  | nil => rfl
  | cons ha _ ih => simp only [List.map_cons, H _ _ ha, ih]

theorem base_names {props : List PropertyDeclaration} {base : List ConcreteProperty}
    (h : mapE expandProp props = .ok base) :
    base.map ConcreteProperty.name = props.map PropertyDeclaration.name :=
  forall₂_map_eq (g := ConcreteProperty.name) (f := PropertyDeclaration.name)
    (fun _ _ hc => (expandProp_ok hc).1) (mapE_ok_iff.mp h)

theorem group_names {N : Nat} {rules : List NumberedPropertyRule}
    {groups : List (List ConcreteProperty)}
    (h : mapE (expandRule N) rules = .ok groups) :
    groups.map (List.map ConcreteProperty.name) =
      rules.map fun r =>
        (List.range N).map fun i => r.name_template ++ toString (i + 1) := by
  refine forall₂_map_eq ?_ (mapE_ok_iff.mp h)
  intro r g hg
  obtain ⟨v, -, rfl⟩ := expandRule_ok hg
  simp only [List.map_map]
  rfl

theorem parts_names {t : ComponentTemplate} {base : List ConcreteProperty}
    {groups : List (List ConcreteProperty)}
    (h1 : mapE expandProp t.properties = .ok base)
    (h2 : mapE (expandRule t.property_sets) t.numbered_properties = .ok groups) :
    (base ++ groups.flatten).map ConcreteProperty.name = expandedNames t := by
  rw [List.map_append, expandedNames, base_names h1, List.map_flatten, group_names h2]

theorem namesNodup_iff : ∀ {l : List String}, namesNodup l = true ↔ l.Nodup := by
  intro l
  induction l with
  | nil => simp [namesNodup]
  | cons n ns ih => simp [namesNodup, ih, List.nodup_cons]

theorem expandTemplate_eq_of_parts {t : ComponentTemplate}
    {base : List ConcreteProperty} {groups : List (List ConcreteProperty)}
    (h1 : mapE expandProp t.properties = .ok base)
    (h2 : mapE (expandRule t.property_sets) t.numbered_properties = .ok groups) :
    expandTemplate t =
      if namesNodup ((base ++ groups.flatten).map ConcreteProperty.name) then
        .ok (base ++ groups.flatten)
      else .error .duplicateName := by
  rw [expandTemplate, h1, h2]

theorem flatten_length_uniform {N : Nat} {gs : List (List ConcreteProperty)}
    (h : ∀ g ∈ gs, g.length = N) : gs.flatten.length = gs.length * N := by
  rw [List.length_flatten]
  have hrep : gs.map List.length = List.replicate gs.length N := by
    rw [List.eq_replicate_iff]
    refine ⟨by simp, ?_⟩
    intro b hb
    obtain ⟨g, hg, rfl⟩ := List.mem_map.mp hb
    exact h g hg
  rw [hrep]
  simp [List.sum_replicate]

/-! ## Claim theorems -/

/-- **C1.** For every template with `k` numbered rules and `property_sets = N`,
the Property Expander emits exactly `len(properties) + k*N` concrete
properties; the InputConveyor-style template of the configuration (2 base
properties, 4 numbered rules, `property_sets = 2`) emits exactly
`2 + 4*2 = 10` properties; and empty `properties` or `numbered_properties`
lists contribute nothing without being an error. -/
theorem expander_count_c1 :
    (∀ (t : ComponentTemplate) (l : List ConcreteProperty),
        expandTemplate t = .ok l →
        l.length = t.properties.length +
          t.numbered_properties.length * t.property_sets)
    ∧ (expandTemplate inputConveyorTemplate).map List.length = .ok (2 + 4 * 2)
    ∧ (∀ t : ComponentTemplate, t.properties = [] → t.numbered_properties = [] →
        expandTemplate t = .ok []) := by
  refine ⟨?_, by rfl, ?_⟩
  · intro t l h
    obtain ⟨base, groups, h1, h2, -, rfl⟩ := expandTemplate_ok_elim h
    have hF := mapE_ok_iff.mp h2
    have hlen : ∀ g ∈ groups, g.length = t.property_sets := by
      intro g hgmem
      obtain ⟨⟨i, hi⟩, rfl⟩ := List.mem_iff_get.mp hgmem
      exact expandRule_ok_length (hF.get (by rw [hF.length_eq]; exact hi) hi)
    rw [List.length_append, mapE_ok_length h1, flatten_length_uniform hlen,
      ← hF.length_eq]
  · intro t hp hn
    rw [expandTemplate, hp, hn]
    rfl

theorem expander_count_c1_witness :
    ([⟨"inputconveyorProperties", .string, .str ""⟩,
      ⟨"produced1", .boolean, .bool false⟩,
      ⟨"produced2", .boolean, .bool false⟩] : List ConcreteProperty).length =
      specExampleTemplate.properties.length +
        specExampleTemplate.numbered_properties.length *
          specExampleTemplate.property_sets :=
  expander_count_c1.1 specExampleTemplate _ rfl

/-- **C2.** The Property Expander applied to the spec's InputConveyor example
template (one string base property, one boolean numbered rule,
`property_sets = 2`) returns exactly the ordered list
`[inputconveyorProperties (string, ""), produced1 (boolean, false),
produced2 (boolean, false)]`. -/
theorem end_to_end_example_c2 :
    expandTemplate specExampleTemplate =
      .ok [⟨"inputconveyorProperties", .string, .str ""⟩,
           ⟨"produced1", .boolean, .bool false⟩,
           ⟨"produced2", .boolean, .bool false⟩] := rfl

theorem flatten_uniform_getElem {γ : Type} {N : Nat} :
    ∀ {gs : List (List γ)}, (∀ g ∈ gs, g.length = N) →
      ∀ {i s : Nat} (hi : i < gs.length), s < N →
        gs.flatten[i * N + s]? = (gs.get ⟨i, hi⟩)[s]? := by
  intro gs
  induction gs with
  | nil => intro _ i s hi; cases hi
  | cons g gs ih =>
      intro hu i s hi hs
      have hg : g.length = N := hu g (List.mem_cons_self g gs)
      cases i with
      | zero =>
          rw [List.flatten_cons, List.getElem?_append, if_pos (by omega)]
          rw [Nat.zero_mul, Nat.zero_add]
          rfl
      | succ i =>
          rw [List.flatten_cons, List.getElem?_append,
            if_neg (by rw [Nat.succ_mul]; omega)]
          have harith : (i + 1) * N + s - g.length = i * N + s := by
            rw [Nat.succ_mul]; omega
          rw [harith]
          exact ih (fun g' h' => hu g' (List.mem_cons_of_mem g h'))
            (by simp only [List.length_cons] at hi; omega) hs

/-- **C3.** Output order of the expander: the base properties occupy the first
`len(properties)` positions in declaration order, and the expansion of
numbered rule `i` for set index `s+1` sits at position
`len(properties) + i*N + s` — rule-major, set-index-minor; in particular every
expansion of an earlier rule precedes every expansion of a later rule. -/
theorem expander_ordering_c3 :
    ∀ (t : ComponentTemplate) (l : List ConcreteProperty),
      expandTemplate t = .ok l →
      (∀ (j : Nat) (hj : j < t.properties.length),
          (l[j]?).map ConcreteProperty.name =
            some ((t.properties.get ⟨j, hj⟩).name))
      ∧ (∀ (i s : Nat) (hi : i < t.numbered_properties.length),
          s < t.property_sets →
          (l[t.properties.length + (i * t.property_sets + s)]?).map
              ConcreteProperty.name =
            some ((t.numbered_properties.get ⟨i, hi⟩).name_template ++
              toString (s + 1))) := by
  intro t l h
  obtain ⟨base, groups, h1, h2, -, rfl⟩ := expandTemplate_ok_elim h
  have h1F := mapE_ok_iff.mp h1
  have h2F := mapE_ok_iff.mp h2
  have hbl : base.length = t.properties.length := mapE_ok_length h1
  have hgl : groups.length = t.numbered_properties.length := mapE_ok_length h2
  constructor
  · intro j hj
    have hjb : j < base.length := by omega
    rw [List.getElem?_append, if_pos hjb,
      List.getElem?_eq_getElem hjb]
    have := h1F.get (by omega) hjb
    simp only [Option.map_some, List.get_eq_getElem]
    exact congrArg some (expandProp_ok this).1
  · intro i s hi hs
    have hu : ∀ g ∈ groups, g.length = t.property_sets := by
      intro g hgmem
      obtain ⟨⟨k, hk⟩, rfl⟩ := List.mem_iff_get.mp hgmem
      exact expandRule_ok_length (h2F.get (by omega) hk)
    have hig : i < groups.length := by omega
    rw [List.getElem?_append, if_neg (by omega),
      show t.properties.length + (i * t.property_sets + s) - base.length =
        i * t.property_sets + s by omega,
      flatten_uniform_getElem hu hig hs]
    have hrule := h2F.get hi hig
    obtain ⟨v, -, hgr⟩ := expandRule_ok hrule
    rw [hgr, List.getElem?_map, List.getElem?_range hs]
    rfl

theorem expander_ordering_c3_witness :
    (([⟨"inputconveyorQuantity", .number, .num 0⟩,
       ⟨"inputconveyorProperties", .string, .str ""⟩,
       ⟨"produced1", .boolean, .bool false⟩,
       ⟨"produced2", .boolean, .bool false⟩,
       ⟨"productType1", .string, .str "Component"⟩,
       ⟨"productType2", .string, .str "Component"⟩,
       ⟨"clonetimeInterval1", .number, .num 160⟩,
       ⟨"clonetimeInterval2", .number, .num 160⟩,
       ⟨"cloneCount1", .number, .num 0⟩,
       ⟨"cloneCount2", .number, .num 0⟩] :
        List ConcreteProperty)[2 + (2 * 2 + 1)]?).map ConcreteProperty.name =
      some ((inputConveyorTemplate.numbered_properties.get
          ⟨2, by decide⟩).name_template ++ toString (1 + 1)) :=
  (expander_ordering_c3 inputConveyorTemplate _ rfl).2 2 1 (by decide) (by decide)

/-- **C4.** For every numbered rule, the emitted concrete names are exactly
`name_template` followed immediately by the decimal set index, for indices
1 through N inclusive and in that order; the suffix is applied even when
`N = 1`. -/
theorem rule_naming_c4 :
    (∀ (n : Nat) (r : NumberedPropertyRule) (l : List ConcreteProperty),
        expandRule n r = .ok l →
        l.map ConcreteProperty.name =
          (List.range n).map fun i => r.name_template ++ toString (i + 1))
    ∧ (expandRule 3 locationRule).map (List.map ConcreteProperty.name) =
        .ok ["location1", "location2", "location3"]
    ∧ (∀ (r : NumberedPropertyRule) (l : List ConcreteProperty),
        expandRule 1 r = .ok l →
        l.map ConcreteProperty.name = [r.name_template ++ "1"]) := by
  refine ⟨?_, by rfl, ?_⟩
  · intro n r l h
    obtain ⟨v, -, rfl⟩ := expandRule_ok h
    simp only [List.map_map]
    rfl
  · intro r l h
    obtain ⟨v, -, rfl⟩ := expandRule_ok h
    rfl

theorem rule_naming_c4_witness :
    ([⟨"location1", .string, .str "initial"⟩,
      ⟨"location2", .string, .str "initial"⟩,
      ⟨"location3", .string, .str "initial"⟩] :
        List ConcreteProperty).map ConcreteProperty.name =
      (List.range 3).map (fun i => locationRule.name_template ++ toString (i + 1)) :=
  rule_naming_c4.1 3 locationRule _ rfl

/-- A template whose two numbered rules share a `name_template`
(uniqueness violation, used to exercise `DuplicatePropertyNameError`). -/
def dupRuleTemplate : ComponentTemplate where
  name := "Dup"
  folder := "Test"
  numbered_properties :=
    [⟨"produced", .boolean, .bool false⟩, ⟨"produced", .number, .num 0⟩]
  property_sets := 1

/-- A template whose numbered rule generates a name colliding with a base
property name. -/
def collideTemplate : ComponentTemplate where
  name := "Collide"
  folder := "Test"
  properties := [⟨"produced1", .string, .str ""⟩]
  numbered_properties := [⟨"produced", .boolean, .bool false⟩]
  property_sets := 1

/-- **C5.** The emitted name list of a successful expansion contains no
duplicates; a template whose expansion would produce a duplicate name —
a `name_template` colliding with a base property, or two rules generating the
same name — fails with `DuplicatePropertyNameError` and emits nothing. -/
theorem uniqueness_c5 :
    (∀ (t : ComponentTemplate) (l : List ConcreteProperty),
        expandTemplate t = .ok l → (l.map ConcreteProperty.name).Nodup)
    ∧ (∀ t : ComponentTemplate,
        (∀ p ∈ t.properties, ∃ v, coerce p.type p.default = .ok v) →
        (∀ r ∈ t.numbered_properties, ∃ v, coerce r.type r.default = .ok v) →
        ¬ (expandedNames t).Nodup →
        expandTemplate t = .error .duplicateName)
    ∧ expandTemplate dupRuleTemplate = .error .duplicateName
    ∧ expandTemplate collideTemplate = .error .duplicateName := by
  refine ⟨?_, ?_, by rfl, by rfl⟩
  · intro t l h
    obtain ⟨base, groups, h1, h2, h3, rfl⟩ := expandTemplate_ok_elim h
    rw [parts_names h1 h2] at h3
    rw [parts_names h1 h2]
    exact namesNodup_iff.mp h3
  · intro t hp hr hdup
    obtain ⟨base, h1⟩ := mapE_ok_of_forall fun p hp' =>
      (hp p hp').elim fun v hv => ⟨⟨p.name, p.type, v⟩, expandProp_ok_of_coerce hv⟩
    obtain ⟨groups, h2⟩ :=
      mapE_ok_of_forall (f := expandRule t.property_sets)
        fun r hr' => (hr r hr').elim fun v hv => ⟨_, expandRule_ok_of_coerce hv⟩
    rw [expandTemplate_eq_of_parts h1 h2, parts_names h1 h2,
      if_neg fun hc => hdup (namesNodup_iff.mp hc)]

theorem uniqueness_c5_witness :
    expandTemplate
        { name := "W5", folder := "Test",
          properties := [⟨"location1", .string, .str ""⟩],
          numbered_properties := [⟨"location", .string, .str "initial"⟩],
          property_sets := 2 } = .error .duplicateName :=
  uniqueness_c5.2.1 _ (by intro p hp; simp at hp; subst hp; exact ⟨_, rfl⟩)
    (by intro r hr; simp at hr; subst hr; exact ⟨_, rfl⟩)
    (by decide)

/-- **C6.** A property or numbered rule whose raw default cannot be coerced to
its declared type makes the expander fail with `TypeMismatchError`; coercion
is strict — the string `"abc"` is not a number, and a string such as `"0"` is
never interpreted as a boolean (a boolean coercion succeeds only on an actual
boolean, returned unchanged). -/
theorem strict_coercion_c6 :
    (∀ t : ComponentTemplate,
        ((∃ p ∈ t.properties, coerce p.type p.default = .error .typeMismatch) ∨
         (∃ r ∈ t.numbered_properties,
            coerce r.type r.default = .error .typeMismatch)) →
        expandTemplate t = .error .typeMismatch)
    ∧ coerce .number (.str "abc") = .error .typeMismatch
    ∧ coerce .boolean (.str "0") = .error .typeMismatch
    ∧ (∀ v w : PValue, coerce .boolean v = .ok w → ∃ b, v = .bool b ∧ w = .bool b) := by
  refine ⟨?_, by rfl, by rfl, ?_⟩
  · intro t hbad
    cases h1 : mapE expandProp t.properties with
    | error e =>
        obtain ⟨p, -, hpe⟩ := mapE_error_mem h1
        have he : e = .typeMismatch := coerce_error_eq (expandProp_error hpe)
        subst he
        rw [expandTemplate, h1]
    | ok base =>
        have hbadr : ∃ r ∈ t.numbered_properties,
            coerce r.type r.default = .error .typeMismatch := by
          cases hbad with
          | inl hbp =>
              obtain ⟨p, hp, hpe⟩ := hbp
              obtain ⟨c, hc⟩ := mapE_ok_mem h1 hp
              have := (expandProp_ok hc).2.2
              rw [hpe] at this
              cases this
          | inr h => exact h
        obtain ⟨r, hrmem, hre⟩ := hbadr
        have hrerr : expandRule t.property_sets r = .error .typeMismatch := by
          rw [expandRule, hre]
        obtain ⟨e', he'⟩ := mapE_error_of_mem hrmem hrerr
        obtain ⟨r', -, hre'⟩ := mapE_error_mem he'
        have he'' : e' = .typeMismatch := coerce_error_eq (expandRule_error hre')
        subst he''
        rw [expandTemplate, h1, he']
  · intro v w h
    cases v with
    | str s => simp [coerce] at h
    | num n => simp [coerce] at h
    | bool b =>
        simp only [coerce, Except.ok.injEq] at h
        exact ⟨b, rfl, h.symm⟩

theorem strict_coercion_c6_witness :
    expandTemplate
        { name := "W6", folder := "Test",
          properties := [⟨"speed", .number, .str "abc"⟩] } =
      .error .typeMismatch :=
  strict_coercion_c6.1 _ (Or.inl ⟨⟨"speed", .number, .str "abc"⟩, by simp, rfl⟩)

/-! ## Template Model validation (§4.1) -/

/-- Modelled from the spec: a raw property record from the declarative source,
its declared type still a plain string (§4.1). -/
structure RawPropertyDeclaration where
  name : String
  type : String
  default : PValue
deriving DecidableEq, Repr

/-- Modelled from the spec: a raw numbered-rule record from the declarative
source (§4.1). -/
structure RawNumberedRule where
  name_template : String
  type : String
  default : PValue
deriving DecidableEq, Repr

/-- Modelled from the spec: a raw template record (§4.1); `name` and `folder`
may be missing, `property_sets` may be absent, zero, or negative. -/
structure RawComponentTemplate where
  name : Option String := none
  folder : Option String := none
  layout_name : Option String := none
  properties : List RawPropertyDeclaration := []
  numbered_properties : List RawNumberedRule := []
  property_sets : Option Int := none
  script : Option String := none
deriving DecidableEq, Repr

/-- The kinds of `TemplateValidationError` (§7 taxonomy). -/
inductive TemplateValidationError where
  | missingField
  | invalidType
  | defaultMismatch
  | invalidPropertySets
deriving DecidableEq, Repr

/-- The closed set of declared type tags (§3). -/
def parseType : String → Option PType
  | "string" => some .string
  | "number" => some .number
  | "boolean" => some .boolean
  | _ => none

/-- A required non-empty string field (§4.1: `name` and `folder`). -/
def requireField : Option String → Except TemplateValidationError String
  | none => .error .missingField
  | some s => if s = "" then .error .missingField else .ok s

/-- Declared type must be in the closed set and the default's dynamic type
must agree with it (§4.1). -/
def checkDecl (ty : String) (v : PValue) : Except TemplateValidationError PType :=
  match parseType ty with
  | none => .error .invalidType
  | some t => if v.kind = t then .ok t else .error .defaultMismatch

def validateProp (p : RawPropertyDeclaration) :
    Except TemplateValidationError PropertyDeclaration :=
  match checkDecl p.type p.default with
  | .error e => .error e
  | .ok t => .ok ⟨p.name, t, p.default⟩

def validateRule (p : RawNumberedRule) :
    Except TemplateValidationError NumberedPropertyRule :=
  match checkDecl p.type p.default with
  | .error e => .error e
  | .ok t => .ok ⟨p.name_template, t, p.default⟩

/-- Modelled from the spec: load-time validation of one template record
(§4.1) — `name` and `folder` required non-empty, declared types in the closed
set, defaults agreeing with their declared types, and, when
`numbered_properties` is non-empty and `property_sets` is present, the latter
positive.  Pure parse-and-validate, no side effects. -/
def validateTemplate (r : RawComponentTemplate) :
    Except TemplateValidationError ComponentTemplate :=
  match requireField r.name with
  | .error e => .error e
  | .ok nm =>
    match requireField r.folder with
    | .error e => .error e
    | .ok fd =>
      match mapE validateProp r.properties with
      | .error e => .error e
      | .ok props =>
        match mapE validateRule r.numbered_properties with
        | .error e => .error e
        | .ok rules =>
          match r.property_sets with
          | none => .ok ⟨nm, fd, r.layout_name, props, rules, 1, r.script⟩
          | some n =>
              if r.numbered_properties ≠ [] ∧ n ≤ 0 then
                .error .invalidPropertySets
              else .ok ⟨nm, fd, r.layout_name, props, rules, n.toNat, r.script⟩

/-- The failure condition exactly as the claim states it: `name` or `folder`
missing or empty, a declared type outside `{string, number, boolean}`, a
default whose value type disagrees with its declared type, or non-empty
`numbered_properties` with a present but non-positive `property_sets`. -/
def invalidPerSpec (r : RawComponentTemplate) : Prop :=
  r.name = none ∨ r.name = some "" ∨ r.folder = none ∨ r.folder = some "" ∨
  (∃ p ∈ r.properties, parseType p.type = none) ∨
  (∃ p ∈ r.numbered_properties, parseType p.type = none) ∨
  (∃ p ∈ r.properties, ∃ t, parseType p.type = some t ∧ p.default.kind ≠ t) ∨
  (∃ p ∈ r.numbered_properties,
    ∃ t, parseType p.type = some t ∧ p.default.kind ≠ t) ∨
  (r.numbered_properties ≠ [] ∧ ∃ n : Int, r.property_sets = some n ∧ n ≤ 0)

/-- The conjunction of checks a record must pass. -/
def validObligations (r : RawComponentTemplate) : Prop :=
  r.name ≠ none ∧ r.name ≠ some "" ∧ r.folder ≠ none ∧ r.folder ≠ some "" ∧
  (∀ p ∈ r.properties, ∃ t, parseType p.type = some t ∧ p.default.kind = t) ∧
  (∀ p ∈ r.numbered_properties,
    ∃ t, parseType p.type = some t ∧ p.default.kind = t) ∧
  (r.numbered_properties ≠ [] → ∀ n : Int, r.property_sets = some n → 0 < n)

theorem requireField_ok_iff {o : Option String} :
    (∃ s, requireField o = .ok s) ↔ (o ≠ none ∧ o ≠ some "") := by
  cases o with
  | none => simp [requireField]
  | some s => by_cases hs : s = "" <;> simp [requireField, hs]

theorem checkDecl_ok_iff {ty : String} {v : PValue} :
    (∃ t, checkDecl ty v = .ok t) ↔
      (∃ t, parseType ty = some t ∧ v.kind = t) := by
  cases hp : parseType ty with
  | none => simp [checkDecl, hp]
  | some t => by_cases hk : v.kind = t <;> simp [checkDecl, hp, hk]

theorem validateProp_ok_iff {p : RawPropertyDeclaration} :
    (∃ q, validateProp p = .ok q) ↔ (∃ t, checkDecl p.type p.default = .ok t) := by
  unfold validateProp
  cases h : checkDecl p.type p.default <;> simp

theorem validateRule_ok_iff {p : RawNumberedRule} :
    (∃ q, validateRule p = .ok q) ↔ (∃ t, checkDecl p.type p.default = .ok t) := by
  unfold validateRule
  cases h : checkDecl p.type p.default <;> simp

theorem mapE_isOk_iff {f : α → Except ε β} {l : List α} :
    (∃ l', mapE f l = .ok l') ↔ ∀ x ∈ l, ∃ y, f x = .ok y :=
  ⟨fun h x hx => h.elim fun _ h' => mapE_ok_mem h' hx, mapE_ok_of_forall⟩

theorem validateTemplate_ok_iff {r : RawComponentTemplate} :
    (∃ t', validateTemplate r = .ok t') ↔ validObligations r := by
  constructor
  · rintro ⟨t', h⟩
    rw [validateTemplate] at h
    split at h
    · cases h
    next nm h1 =>
      split at h
      · cases h
      next fd h2 =>
        split at h
        · cases h
        next props h3 =>
          split at h
          · cases h
          next rules h4 =>
            have ob1 := requireField_ok_iff.mp ⟨nm, h1⟩
            have ob2 := requireField_ok_iff.mp ⟨fd, h2⟩
            have ob3 : ∀ p ∈ r.properties,
                ∃ t, parseType p.type = some t ∧ p.default.kind = t := by
              intro p hp
              exact checkDecl_ok_iff.mp
                (validateProp_ok_iff.mp (mapE_ok_mem h3 hp))
            have ob4 : ∀ p ∈ r.numbered_properties,
                ∃ t, parseType p.type = some t ∧ p.default.kind = t := by
              intro p hp
              exact checkDecl_ok_iff.mp
                (validateRule_ok_iff.mp (mapE_ok_mem h4 hp))
            refine ⟨ob1.1, ob1.2, ob2.1, ob2.2, ob3, ob4, ?_⟩
            intro hne n hn
            rw [hn] at h
            split at h
            next heq => cases heq
            next n' heq =>
              injection heq with heq
              subst heq
              split at h
              · cases h
              next hcond =>
                rw [not_and_or] at hcond
                rcases hcond with hc | hc
                · exact absurd (not_not.mp hc) hne
                · omega
  · intro hob
    obtain ⟨ob1, ob2, ob3, ob4, ob5, ob6, ob7⟩ := hob
    obtain ⟨nm, h1⟩ := requireField_ok_iff.mpr ⟨ob1, ob2⟩
    obtain ⟨fd, h2⟩ := requireField_ok_iff.mpr ⟨ob3, ob4⟩
    obtain ⟨props, h3⟩ := mapE_ok_of_forall (f := validateProp) fun p hp =>
      validateProp_ok_iff.mpr (checkDecl_ok_iff.mpr (ob5 p hp))
    obtain ⟨rules, h4⟩ := mapE_ok_of_forall (f := validateRule) fun p hp =>
      validateRule_ok_iff.mpr (checkDecl_ok_iff.mpr (ob6 p hp))
    cases hps : r.property_sets with
    | none =>
        refine ⟨⟨nm, fd, r.layout_name, props, rules, 1, r.script⟩, ?_⟩
        rw [validateTemplate, h1, h2, h3, h4, hps]
    | some n =>
        have hcond : ¬ (r.numbered_properties ≠ [] ∧ n ≤ 0) := by
          rintro ⟨hne, hn0⟩
          exact absurd (ob7 hne n hps) (by omega)
        have hval : validateTemplate r =
            if r.numbered_properties ≠ [] ∧ n ≤ 0 then
              .error .invalidPropertySets
            else .ok ⟨nm, fd, r.layout_name, props, rules, n.toNat, r.script⟩ := by
          rw [validateTemplate, h1, h2, h3, h4, hps]
        rw [hval, if_neg hcond]
        exact ⟨_, rfl⟩

theorem invalidPerSpec_iff_not_obligations {r : RawComponentTemplate} :
    invalidPerSpec r ↔ ¬ validObligations r := by
  constructor
  · rintro (h | h | h | h | h | h | h | h | h) ⟨ob1, ob2, ob3, ob4, ob5, ob6, ob7⟩
    · exact ob1 h
    · exact ob2 h
    · exact ob3 h
    · exact ob4 h
    · obtain ⟨p, hp, hnone⟩ := h
      obtain ⟨t, hsome, -⟩ := ob5 p hp
      rw [hnone] at hsome
      cases hsome
    · obtain ⟨p, hp, hnone⟩ := h
      obtain ⟨t, hsome, -⟩ := ob6 p hp
      rw [hnone] at hsome
      cases hsome
    · obtain ⟨p, hp, t, hsome, hne⟩ := h
      obtain ⟨t', hsome', hk⟩ := ob5 p hp
      rw [hsome] at hsome'
      injection hsome' with hsome'
      exact hne (hsome' ▸ hk)
    · obtain ⟨p, hp, t, hsome, hne⟩ := h
      obtain ⟨t', hsome', hk⟩ := ob6 p hp
      rw [hsome] at hsome'
      injection hsome' with hsome'
      exact hne (hsome' ▸ hk)
    · obtain ⟨hne, n, hsets, hn0⟩ := h
      exact absurd (ob7 hne n hsets) (by omega)
  · intro hno
    by_contra hni
    apply hno
    unfold invalidPerSpec at hni
    push_neg at hni
    obtain ⟨h1, h2, h3, h4, h5, h6, h7, h8, h9⟩ := hni
    refine ⟨h1, h2, h3, h4, ?_, ?_, ?_⟩
    · intro p hp
      cases hparse : parseType p.type with
      | none => exact absurd hparse (h5 p hp)
      | some t => exact ⟨t, rfl, h7 p hp t hparse⟩
    · intro p hp
      cases hparse : parseType p.type with
      | none => exact absurd hparse (h6 p hp)
      | some t => exact ⟨t, rfl, h8 p hp t hparse⟩
    · intro hne n hsets
      have := h9 hne n hsets
      omega

/-- The raw "Block Geo" record of the source (lines 41–45): all optional
fields absent. -/
def rawBlockGeoTemplate : RawComponentTemplate where
  name := some "Block Geo"
  folder := some "Basic Shapes"
  layout_name := some "Component1"

/-- **C7.** Load-time validation fails with a `TemplateValidationError`
exactly when `name` or `folder` is missing or empty, a declared type is
outside `{string, number, boolean}`, a default's value type disagrees with
its declared type, or `numbered_properties` is non-empty and `property_sets`
is present but zero or negative; a record passing these checks validates
successfully — in particular the source's "Block Geo" record. -/
theorem validation_c7 :
    (∀ r : RawComponentTemplate,
        (∃ e, validateTemplate r = .error e) ↔ invalidPerSpec r)
    ∧ validateTemplate rawBlockGeoTemplate = .ok blockGeoTemplate := by
  refine ⟨?_, by rfl⟩
  intro r
  rw [invalidPerSpec_iff_not_obligations, ← validateTemplate_ok_iff]
  cases validateTemplate r <;> simp

theorem validation_c7_witness :
    invalidPerSpec
      { name := some "Bad", folder := some "F",
        numbered_properties := [⟨"x", "boolean", .bool false⟩],
        property_sets := some 0 } :=
  (validation_c7.1 _).mp ⟨.invalidPropertySets, rfl⟩

/-! ## Materialization Adapter (§4.4) -/

/-- The errors a single template's processing can produce before any host
interaction (§7 taxonomy, host-side `MaterializationError` excluded: a
template failing validation or expansion never reaches the host). -/
inductive TemplateError where
  | validation (e : TemplateValidationError)
  | expansion (e : ExpandError)
deriving DecidableEq, Repr

/-- Modelled from the spec: the per-template pipeline — load-time validation,
then property expansion; an error at either stage aborts that template's
processing (§4.1, §4.3, §7). -/
def processTemplate (r : RawComponentTemplate) :
    Except TemplateError (ComponentTemplate × List ConcreteProperty) :=
  match validateTemplate r with
  | .error e => .error (.validation e)
  | .ok t =>
      match expandTemplate t with
      | .error e => .error (.expansion e)
      | .ok props => .ok (t, props)

/-- One call into the external host creation API (§6). -/
inductive HostCall where
  | clone_or_create (layout : Option String)
  | place (folder : String)
  | set_property (p : ConcreteProperty)
  | bind_behavior (script : String)
deriving DecidableEq, Repr

/-- Modelled from the spec: the one-shot host-call sequence of the
Materialization Adapter for one successfully expanded template (§4.4). -/
def hostCalls (t : ComponentTemplate) (props : List ConcreteProperty) :
    List HostCall :=
  .clone_or_create t.layout_name :: .place t.folder ::
    (props.map .set_property ++
      match t.script with
      | none => []
      | some s => [.bind_behavior s])

/-- The host calls one template contributes to a batch run: none when its
validation or expansion fails. -/
def materializeOne (r : RawComponentTemplate) : List HostCall :=
  match processTemplate r with
  | .error _ => []
  | .ok (t, props) => hostCalls t props

/-- Modelled from the spec: a whole batch is processed template by template,
each independently (§5, §7). -/
def runBatch (rs : List RawComponentTemplate) : List HostCall :=
  (rs.map materializeOne).flatten

/-- **C8.** A template that fails validation or expansion causes no
host-creation call at all, and its failure aborts only its own processing:
removing a failing template from a batch leaves the host calls of every other
template unchanged — the batch trace splits around it. -/
theorem failure_isolation_c8 :
    (∀ (r : RawComponentTemplate) (e : TemplateError),
        processTemplate r = .error e → materializeOne r = [])
    ∧ (∀ (xs ys : List RawComponentTemplate) (r : RawComponentTemplate)
        (e : TemplateError), processTemplate r = .error e →
        runBatch (xs ++ r :: ys) = runBatch xs ++ runBatch ys) := by
  have habort : ∀ (r : RawComponentTemplate) (e : TemplateError),
      processTemplate r = .error e → materializeOne r = [] := by
    intro r e h
    rw [materializeOne, h]
  refine ⟨habort, ?_⟩
  intro xs ys r e h
  rw [runBatch, runBatch, runBatch, List.map_append, List.map_cons,
    habort r e h, List.flatten_append, List.flatten_cons, List.nil_append]

/-- A raw record with a missing `name`, failing validation. -/
def rawMissingNameTemplate : RawComponentTemplate where
  folder := some "Basic Shapes"

theorem failure_isolation_c8_witness :
    runBatch [rawBlockGeoTemplate, rawMissingNameTemplate] =
      runBatch [rawBlockGeoTemplate] ++ runBatch [] :=
  failure_isolation_c8.2 [rawBlockGeoTemplate] [] rawMissingNameTemplate
    (.validation .missingField) rfl

/-! ## The loader's single eval of the template list
(ConfigurationScript.py lines 136–144) -/

/-- The bare script identifiers appearing in `raw_components`, in source
order: PathwayArea, OutputConveyor, InputConveyor, IdleLocation, Robot. -/
def scriptRefs : List String :=
  COMPONENTS_TO_CREATE.filterMap ComponentTemplate.script

/-- The single evaluation of the whole template list
(`COMPONENTS_TO_CREATE = eval(...)`): each record's bare `script` identifier
is resolved in the ambient environment `env` during that one evaluation; an
unbound name aborts the whole evaluation, and the name `COMPONENTS_TO_CREATE`
is then never assigned. -/
def evalComponents {σ : Type} (env : String → Option σ) :
    Except String (List (ComponentTemplate × Option σ)) :=
  mapE (fun t =>
    match t.script with
    | none => .ok (t, none)
    | some nm =>
        match env nm with
        | none => .error nm
        | some sc => .ok (t, some sc)) COMPONENTS_TO_CREATE

/-- The trace of `create_component` calls made by the script's main loop:
one call per loaded component when the load succeeded, none when it raised. -/
def runConfigurationScript {σ : Type} (env : String → Option σ) :
    List (ComponentTemplate × Option σ) :=
  match evalComponents env with
  | .error _ => []
  | .ok comps => comps

/-- **C10.** Script references are bare identifiers resolved during the
single evaluation of the whole template list, so loading is all-or-nothing:
if any one script name is unbound, the evaluation never produces a component
list and no component of the batch — including templates listed earlier — is
ever created. -/
theorem load_all_or_nothing_c10 :
    ∀ {σ : Type} (env : String → Option σ) (nm : String),
      nm ∈ scriptRefs → env nm = none →
      (∀ comps, evalComponents env ≠ .ok comps) ∧
        runConfigurationScript env = [] := by
  intro σ env nm hmem henv
  have hne : ∀ comps, evalComponents env ≠ .ok comps := by
    intro comps hok
    obtain ⟨t, htmem, hts⟩ := List.mem_filterMap.mp hmem
    obtain ⟨y, hy⟩ := mapE_ok_mem hok htmem
    simp only [hts, henv] at hy
    cases hy
  refine ⟨hne, ?_⟩
  cases hev : evalComponents env with
  | error e => rw [runConfigurationScript, hev]
  | ok comps => exact absurd hev (hne comps)

/-- An environment binding every script name of the source except `Robot`
(the script of the last template). -/
def envWithoutRobot : String → Option Unit :=
  fun nm => if nm = "Robot" then none else some ()

theorem load_all_or_nothing_c10_witness :
    runConfigurationScript envWithoutRobot = [] :=
  (load_all_or_nothing_c10 envWithoutRobot "Robot" (by decide) (by rfl)).2

/-! ## The loader's boolean-literal substitution
(`raw_components.replace("false", "False").replace("true", "True")`,
ConfigurationScript.py lines 136–138), modelled on lists of characters. -/

/-- Python's `str.replace`: replace every non-overlapping occurrence of `p`
in `s` by `r`, scanning left to right. -/
def replaceAll (p r : List Char) (s : List Char) : List Char :=
  match s with
  | [] => []
  | c :: cs =>
      if h : p ≠ [] ∧ p.isPrefixOf (c :: cs) then
        r ++ replaceAll p r ((c :: cs).drop p.length)
      else
        c :: replaceAll p r cs
termination_by s.length
decreasing_by
  · simp only [List.length_drop, List.length_cons]
    have hp : p.length ≠ 0 := fun h0 => h.1 (List.eq_nil_of_length_eq_zero h0)
    omega
  · simp only [List.length_cons]
    omega

/-- Whether `p` occurs as a contiguous substring of `s`. -/
def containsSub (p : List Char) : List Char → Bool
  | [] => p.isEmpty
  | c :: cs => p.isPrefixOf (c :: cs) || containsSub p cs

/-- The loader's substitution: every occurrence of `false` rewritten to
`False`, then every occurrence of `true` to `True`, over the raw template
text before it is evaluated. -/
def loaderSubst (s : List Char) : List Char :=
  replaceAll "true".data "True".data (replaceAll "false".data "False".data s)

theorem replaceAll_nil {p r : List Char} : replaceAll p r [] = [] := by
  simp only [replaceAll]

theorem replaceAll_step {p r : List Char} {c : Char} {cs : List Char}
    (h : p ≠ [] ∧ p.isPrefixOf (c :: cs) = true) :
    replaceAll p r (c :: cs) = r ++ replaceAll p r ((c :: cs).drop p.length) := by
  rw [replaceAll]
  rw [dif_pos h]

theorem replaceAll_skip {p r : List Char} {c : Char} {cs : List Char}
    (h : ¬(p ≠ [] ∧ p.isPrefixOf (c :: cs) = true)) :
    replaceAll p r (c :: cs) = c :: replaceAll p r cs := by
  rw [replaceAll]
  rw [dif_neg h]

theorem eq_append_drop_of_isPrefixOf {p s : List Char} (h : p.isPrefixOf s) :
    s = p ++ s.drop p.length := by
  obtain ⟨t, ht⟩ := ( List.isPrefixOf_iff_prefix).mp h
  rw [← ht, List.drop_left]

theorem replaceAll_of_not_contains {p r : List Char} :
    ∀ {s : List Char}, containsSub p s = false → replaceAll p r s = s := by
  intro s
  induction s with
  | nil => intro _; exact replaceAll_nil
  | cons c cs ih =>
      intro h
      rw [containsSub, Bool.or_eq_false_iff] at h
      have hnot : ¬(p ≠ [] ∧ p.isPrefixOf (c :: cs) = true) := by
        rintro ⟨-, hpre⟩
        rw [h.1] at hpre
        cases hpre
      rw [replaceAll_skip hnot, ih h.2]

theorem replaceAll_count_le {p r : List Char} {c : Char}
    (hc : r.count c ≤ p.count c) (s : List Char) :
    (replaceAll p r s).count c ≤ s.count c := by
  induction s using replaceAll.induct p r with
  | case1 => rw [replaceAll_nil]
  | case2 c' cs h ih =>
      rw [replaceAll_step h, List.count_append]
      conv_rhs => rw [eq_append_drop_of_isPrefixOf h.2, List.count_append]
      exact Nat.add_le_add hc ih
  | case3 c' cs h ih =>
      rw [replaceAll_skip h, List.count_cons, List.count_cons]
      exact Nat.add_le_add_right ih _

theorem replaceAll_count_lt {p r : List Char} {c : Char}
    (hc : r.count c < p.count c) :
    ∀ s : List Char, containsSub p s = true →
      (replaceAll p r s).count c < s.count c := by
  intro s
  induction s using replaceAll.induct p r with
  | case1 =>
      intro h
      rw [containsSub] at h
      rw [List.isEmpty_iff.mp h] at hc
      simp at hc
  | case2 c' cs h ih =>
      intro _
      rw [replaceAll_step h, List.count_append]
      conv_rhs => rw [eq_append_drop_of_isPrefixOf h.2, List.count_append]
      exact Nat.add_lt_add_of_lt_of_le hc (replaceAll_count_le (Nat.le_of_lt hc) _)
  | case3 c' cs h ih =>
      intro hcon
      by_cases hp : p = []
      · subst hp
        simp at hc
      · have hpre : p.isPrefixOf (c' :: cs) = false := by
          cases hpf : p.isPrefixOf (c' :: cs)
          · rfl
          · exact absurd ⟨hp, hpf⟩ h
        rw [containsSub, hpre, Bool.false_or] at hcon
        rw [replaceAll_skip h, List.count_cons, List.count_cons]
        exact Nat.add_lt_add_right (ih hcon) _

theorem loaderSubst_false : loaderSubst "false".data = "False".data := by
  rw [loaderSubst]
  rw [show ("false".data : List Char) = 'f' :: "alse".data from rfl]
  rw [replaceAll_step ⟨by decide, by decide⟩]
  rw [show (('f' :: "alse".data).drop ("false".data).length) = ([] : List Char)
    from rfl]
  rw [replaceAll_nil, List.append_nil]
  exact replaceAll_of_not_contains (by decide)

theorem loaderSubst_true : loaderSubst "true".data = "True".data := by
  rw [loaderSubst]
  rw [replaceAll_of_not_contains (p := "false".data) (by decide)]
  rw [show ("true".data : List Char) = 't' :: "rue".data from rfl]
  rw [replaceAll_step ⟨by decide, by decide⟩]
  rw [show (('t' :: "rue".data).drop ("true".data).length) = ([] : List Char)
    from rfl]
  rw [replaceAll_nil, List.append_nil]

/-- **C9.** The loader textually replaces every occurrence of `false`/`true`
with `False`/`True` before evaluating the template text: the bare tokens
become the Python boolean literals, any character sequence containing either
substring is altered by the substitution, and a sequence is preserved
verbatim exactly when it contains neither substring. -/
theorem loader_substitution_c9 :
    loaderSubst "false".data = "False".data
    ∧ loaderSubst "true".data = "True".data
    ∧ (∀ s : List Char,
        containsSub "false".data s = true ∨ containsSub "true".data s = true →
        loaderSubst s ≠ s)
    ∧ (∀ s : List Char, containsSub "false".data s = false →
        containsSub "true".data s = false → loaderSubst s = s) := by
  refine ⟨loaderSubst_false, loaderSubst_true, ?_, ?_⟩
  · intro s hor heq
    by_cases hf : containsSub "false".data s = true
    · have h1 : (replaceAll "false".data "False".data s).count 'f' <
          s.count 'f' := replaceAll_count_lt (by decide) s hf
      have h2 : (loaderSubst s).count 'f' ≤
          (replaceAll "false".data "False".data s).count 'f' :=
        replaceAll_count_le (by decide) _
      have h3 := congrArg (List.count 'f') heq
      rw [show (List.count 'f' (loaderSubst s)) = (loaderSubst s).count 'f'
        from rfl] at h3
      omega
    · have ht : containsSub "true".data s = true := by
        rcases hor with h | h
        · exact absurd h hf
        · exact h
      have hid : replaceAll "false".data "False".data s = s :=
        replaceAll_of_not_contains (Bool.not_eq_true _ ▸ hf)
      have h1 : (loaderSubst s).count 't' < s.count 't' := by
        rw [loaderSubst, hid]
        exact replaceAll_count_lt (by decide) s ht
      have h3 := congrArg (List.count 't') heq
      rw [show (List.count 't' (loaderSubst s)) = (loaderSubst s).count 't'
        from rfl] at h3
      omega
  · intro s hf ht
    rw [loaderSubst, replaceAll_of_not_contains hf, replaceAll_of_not_contains ht]

theorem loader_substitution_c9_witness :
    loaderSubst "untrue".data ≠ "untrue".data ∧
      loaderSubst "Component".data = "Component".data :=
  ⟨loader_substitution_c9.2.2.1 _ (Or.inr (by decide)),
   loader_substitution_c9.2.2.2 _ (by decide) (by decide)⟩

end SpatialDSL
